import Mathlib

/-!
# Verification of the support-agent session query pipeline

Shallow embedding of the pure/stateful logic of the support-agent
repository (`src/agent/index.ts`, `src/services/context-builder.ts`,
`src/utils.ts`, and the configuration module), together with theorems
settling the specification claims about it.

JavaScript values that may be `undefined`/`null` are modelled with
`Option`; JavaScript truthiness (`||`, `!!`, ternaries on strings and
numbers) is modelled explicitly (`0` and `""` are falsy).
-/

set_option autoImplicit false

namespace SupportAgent

/-- JS `a || b` on optional numbers: `0` and `undefined` are falsy. -/
def jsOrNat (a : Option Nat) (b : Nat) : Nat :=
  match a with
  | some n => if n = 0 then b else n
  | none => b

/-- JS `a || b` on optional strings: `""` and `undefined` are falsy. -/
def jsOrStr (a : Option String) (b : String) : String :=
  match a with
  | some s => if s = "" then b else s
  | none => b

/-- A message part, as probed by the code: `{id, type, role, text}`
(`src/agent/index.ts:230-235`). `role` and `text` may be absent. -/
structure Part where
  id : String
  type : String
  role : Option String
  text : Option String
deriving DecidableEq

/-- Token counts carried by `message.updated` events
(`src/agent/index.ts:303-309`). Every field may be absent. -/
structure Tokens where
  input : Option Nat
  output : Option Nat
  total : Option Nat
  prompt : Option Nat
  completion : Option Nat
deriving DecidableEq

/-- `properties.info` of a `message.updated` event (`src/agent/index.ts:303`). -/
structure MsgInfo where
  role : Option String
  tokens : Option Tokens
deriving DecidableEq

/-- `properties.error` of a `session.error` event: the code probes
`error.data.message` and `error.name` (`src/agent/index.ts:318-321`);
`dataMessage` stands for the nested `data.message` access (absent when
either level is absent). -/
structure ErrPayload where
  dataMessage : Option String
  name : Option String
deriving DecidableEq

/-- A global agent event, with exactly the fields the code probes:
`event.type` plus the optional `properties.sessionID`, `properties.part`,
`properties.info` and `properties.error`. An absent `properties` object
is identified with all fields absent. -/
structure AgentEvent where
  type : String
  sessionID : Option String
  part : Option Part
  info : Option MsgInfo
  error : Option ErrPayload
deriving DecidableEq

/-- The skip test of `sessionEvents` (`src/agent/index.ts:208-209`),
inverted: an event is yielded unless it carries a `sessionID` different
from the target. -/
def qualifies (target : String) (e : AgentEvent) : Bool :=
  match e.sessionID with
  | some sid => sid = target
  | none => true

/-- The termination test of `sessionEvents` (`src/agent/index.ts:211-215`):
after yielding, stop if the event is `session.idle` for the target session. -/
def isMatchingIdle (target : String) (e : AgentEvent) : Bool :=
  e.type = "session.idle" && e.sessionID = some target

/-- The Event Stream Filter (`sessionEvents`, `src/agent/index.ts:196-219`),
as a function on the finite list of events delivered by the underlying
global stream: skip events whose `sessionID` is present and differs from
the target, yield everything else, and stop right after yielding a
`session.idle` event whose `sessionID` equals the target. -/
def sessionEvents (target : String) : List AgentEvent → List AgentEvent
  | [] => []
  | e :: rest =>
    if qualifies target e then
      e :: (if isMatchingIdle target e then [] else sessionEvents target rest)
    else
      sessionEvents target rest

/-- `takeThrough p l` is the prefix of `l` up to and including the first
element satisfying `p` (all of `l` if none does). Used to state what
"stops exactly at (and including) the first matching idle event" means. -/
def takeThrough {α : Type} (p : α → Bool) : List α → List α
  | [] => []
  | a :: as => if p a then [a] else a :: takeThrough p as

/-- C1. For every sequence of global events and every target session id,
`sessionEvents` yields exactly the events that carry no `sessionID` or
carry `sessionID` equal to the target, in source order, truncated exactly
at (and including) the first such event that is a `session.idle` for the
target: the filter is the composition of filtering by `qualifies` with
`takeThrough` the matching-idle test. -/
theorem sessionEvents_eq_takeThrough_filter (target : String) (events : List AgentEvent) :
    sessionEvents target events =
      takeThrough (isMatchingIdle target) (events.filter (qualifies target)) := by
  induction events with
  | nil => rfl
  | cons e rest ih =>
    by_cases hq : qualifies target e
    · by_cases hi : isMatchingIdle target e
      · simp [sessionEvents, takeThrough, hq, hi]
      · simp [sessionEvents, takeThrough, hq, hi, ih]
    · simp [sessionEvents, takeThrough, hq, ih]

/-- The JS whitespace class (`\s`, also the set trimmed by
`String.prototype.trim`): ASCII whitespace, NBSP, BOM, the Unicode
space separators and the line terminators. -/
def isJsWs (c : Char) : Bool :=
  c = ' ' || c = '\t' || c = '\n' || c = '\r' || c = '\u000b' || c = '\u000c' ||
  c = '\u00a0' || c = '\u1680' || ('\u2000' ≤ c && c ≤ '\u200a') ||
  c = '\u2028' || c = '\u2029' || c = '\u202f' || c = '\u205f' ||
  c = '\u3000' || c = '\ufeff'

/-- JS `String.prototype.trim`: strip leading and trailing `isJsWs`
characters. -/
def jsTrim (s : String) : String :=
  String.mk (((s.data.dropWhile isJsWs).reverse.dropWhile isJsWs).reverse)

/-- A JS `Map<string, string>` as an association list: `mapSet` overwrites
the entry in place (keys stay unique and keep insertion position). -/
def mapSet : List (String × String) → String → String → List (String × String)
  | [], k, v => [(k, v)]
  | (k', v') :: rest, k, v =>
    if k' = k then (k, v) :: rest else (k', v') :: mapSet rest k v

/-- Lookup in the association-list map (`Map.get`). -/
def mapGet : List (String × String) → String → Option String
  | [], _ => none
  | (k', v) :: rest, k => if k' = k then some v else mapGet rest k

/-- The accumulator of `extractAnswerFromEvents`: the ordered list of
distinct part ids and the latest-text map (`src/agent/index.ts:225-226`). -/
structure AsmState where
  partIds : List String
  partText : List (String × String)
deriving DecidableEq

/-- One iteration of the loop of `extractAnswerFromEvents`
(`src/agent/index.ts:228-236`): skip non-`message.part.updated` events,
events with no part, parts that are not text, and user parts; otherwise
record the id (first-seen order) and overwrite the latest text
(`String(part.text ?? "")` is `""` when `text` is absent). -/
def asmStep (s : AsmState) (e : AgentEvent) : AsmState :=
  if e.type = "message.part.updated" then
    match e.part with
    | some p =>
      if p.type = "text" then
        if p.role = some "user" then s
        else
          { partIds := if s.partIds.contains p.id then s.partIds else s.partIds ++ [p.id]
            partText := mapSet s.partText p.id (p.text.getD "") }
      else s
    | none => s
  else s

/-- The Answer Assembler (`extractAnswerFromEvents`,
`src/agent/index.ts:224-242`): fold the loop over the collected events,
then concatenate the latest text of each id in first-seen order and trim. -/
def extractAnswerFromEvents (events : List AgentEvent) : String :=
  let s := events.foldl asmStep { partIds := [], partText := [] }
  jsTrim (String.join (s.partIds.map (fun id => (mapGet s.partText id).getD "")))

/-- The qualifying-part view of one event: `some (id, text)` exactly when
the event passes every skip test of the assembler loop. -/
def partEventData (e : AgentEvent) : Option (String × String) :=
  if e.type = "message.part.updated" then
    match e.part with
    | some p =>
      if p.type = "text" then
        if p.role = some "user" then none
        else some (p.id, p.text.getD "")
      else none
    | none => none
  else none

/-- The qualifying `(id, text)` pairs of an event list, in source order. -/
def qualParts (events : List AgentEvent) : List (String × String) :=
  events.filterMap partEventData

/-- First-seen-order deduplicated keys of a pair list, relative to the
already-seen keys `seen`. -/
def firstSeen (seen : List String) : List (String × String) → List String
  | [] => []
  | (k, _) :: rest =>
    if k ∈ seen then firstSeen seen rest
    else k :: firstSeen (seen ++ [k]) rest

/-- The latest (last-occurring) text recorded for key `q` in a pair list. -/
def latestText : List (String × String) → String → Option String
  | [], _ => none
  | (k, v) :: rest, q =>
    match latestText rest q with
    | some r => some r
    | none => if k = q then some v else none

/-- The spec's description of the Answer Assembler: concatenate, in
first-seen order of part ids, the latest text recorded for each id among
the qualifying events, and trim. -/
def specAnswer (events : List AgentEvent) : String :=
  jsTrim (String.join ((firstSeen [] (qualParts events)).map
    (fun id => (latestText (qualParts events) id).getD "")))

/-- The assembler loop body, restricted to qualifying pairs. -/
def recordPart (s : AsmState) (kv : String × String) : AsmState :=
  { partIds := if s.partIds.contains kv.1 then s.partIds else s.partIds ++ [kv.1]
    partText := mapSet s.partText kv.1 kv.2 }

theorem asmStep_eq_recordPart (s : AsmState) (e : AgentEvent) :
    asmStep s e = match partEventData e with
      | some kv => recordPart s kv
      | none => s := by
  obtain ⟨ty, sid, part, info, err⟩ := e
  by_cases h : ty = "message.part.updated"
  · cases part with
    | none => simp [asmStep, partEventData, h]
    | some p =>
      by_cases ht : p.type = "text"
      · by_cases hr : p.role = some "user" <;>
          simp [asmStep, partEventData, recordPart, h, ht, hr]
      · simp [asmStep, partEventData, h, ht]
  · simp [asmStep, partEventData, h]

theorem foldl_asmStep_eq (events : List AgentEvent) (s : AsmState) :
    events.foldl asmStep s = (qualParts events).foldl recordPart s := by
  induction events generalizing s with
  | nil => rfl
  | cons e rest ih =>
    rw [List.foldl_cons, asmStep_eq_recordPart]
    cases h : partEventData e with
    | none => simp [qualParts, List.filterMap_cons, h, ih, qualParts]
    | some kv => simp [qualParts, List.filterMap_cons, h, ih, qualParts]

theorem foldl_recordPart_partIds (ps : List (String × String)) (s : AsmState) :
    (ps.foldl recordPart s).partIds = s.partIds ++ firstSeen s.partIds ps := by
  induction ps generalizing s with
  | nil => simp [firstSeen]
  | cons kv rest ih =>
    obtain ⟨k, v⟩ := kv
    rw [List.foldl_cons, ih]
    by_cases h : k ∈ s.partIds
    · simp [recordPart, firstSeen, h]
    · simp [recordPart, firstSeen, h, List.append_assoc]

theorem mapGet_mapSet (m : List (String × String)) (k v q : String) :
    mapGet (mapSet m k v) q = if k = q then some v else mapGet m q := by
  induction m with
  | nil => simp [mapSet, mapGet]
  | cons kv rest ih =>
    obtain ⟨k', v'⟩ := kv
    by_cases h : k' = k
    · subst h
      by_cases hq : k' = q <;> simp [mapSet, mapGet, hq]
    · by_cases hq : k' = q
      · subst hq
        have hk : ¬k = k' := fun hk => h hk.symm
        simp [mapSet, mapGet, h, hk]
      · simp [mapSet, mapGet, h, hq, ih]

theorem foldl_recordPart_mapGet (ps : List (String × String)) (s : AsmState) (q : String) :
    mapGet (ps.foldl recordPart s).partText q =
      match latestText ps q with
      | some r => some r
      | none => mapGet s.partText q := by
  induction ps generalizing s with
  | nil => simp [latestText]
  | cons kv rest ih =>
    obtain ⟨k, v⟩ := kv
    rw [List.foldl_cons, ih]
    cases h : latestText rest q with
    | some r => simp [latestText, h]
    | none =>
      simp only [latestText, h, recordPart, mapGet_mapSet]
      by_cases hk : k = q <;> simp [hk]

theorem extractAnswer_eq_specAnswer (events : List AgentEvent) :
    extractAnswerFromEvents events = specAnswer events := by
  show jsTrim (String.join
      ((events.foldl asmStep { partIds := [], partText := [] }).partIds.map
        (fun id =>
          (mapGet (events.foldl asmStep { partIds := [], partText := [] }).partText id).getD ""))) =
    specAnswer events
  rw [foldl_asmStep_eq, foldl_recordPart_partIds, specAnswer]
  simp only [List.nil_append]
  congr 1
  congr 1
  apply List.map_congr_left
  intro id _
  rw [foldl_recordPart_mapGet]
  cases h : latestText (qualParts events) id <;> simp [h, mapGet]

/-- C2. The Answer Assembler returns the concatenation, in first-seen
order of part ids, of the latest text recorded for each id among the
qualifying `message.part.updated` events (text parts whose role is not
`"user"`), trimmed; and on the concrete input
`[{id:"a", text:"Hel"}, {id:"a", text:"Hello"}, {id:"b", text:" world"}]`
(role assistant) it returns `"Hello world"`. -/
theorem extractAnswer_spec :
    (∀ events : List AgentEvent, extractAnswerFromEvents events = specAnswer events) ∧
    extractAnswerFromEvents
      [{ type := "message.part.updated", sessionID := none,
         part := some { id := "a", type := "text", role := some "assistant", text := some "Hel" },
         info := none, error := none },
       { type := "message.part.updated", sessionID := none,
         part := some { id := "a", type := "text", role := some "assistant", text := some "Hello" },
         info := none, error := none },
       { type := "message.part.updated", sessionID := none,
         part := some { id := "b", type := "text", role := some "assistant", text := some " world" },
         info := none, error := none }] = "Hello world" :=
  ⟨extractAnswer_eq_specAnswer, by decide⟩

theorem qualParts_append (l l' : List AgentEvent) :
    qualParts (l ++ l') = qualParts l ++ qualParts l' := by
  simp [qualParts, List.filterMap_append]

theorem latestText_append (ps qs : List (String × String)) (q : String) :
    latestText (ps ++ qs) q =
      match latestText qs q with
      | some r => some r
      | none => latestText ps q := by
  induction ps with
  | nil =>
    simp only [List.nil_append, latestText]
    cases latestText qs q <;> rfl
  | cons kv rest ih =>
    obtain ⟨k, v⟩ := kv
    simp only [List.cons_append, latestText, List.append_eq]
    rw [ih]
    cases latestText qs q <;> cases latestText rest q <;> rfl

theorem firstSeen_append (ps qs : List (String × String)) (seen : List String) :
    firstSeen seen (ps ++ qs) =
      firstSeen seen ps ++ firstSeen (seen ++ firstSeen seen ps) qs := by
  induction ps generalizing seen with
  | nil => simp [firstSeen]
  | cons kv rest ih =>
    obtain ⟨k, v⟩ := kv
    by_cases h : k ∈ seen
    · simp [firstSeen, h, ih]
    · simp only [List.cons_append, firstSeen, h, if_neg, not_false_iff, List.append_eq]
      rw [ih (seen ++ [k])]
      simp [List.append_assoc]

theorem mem_seen_or_firstSeen (ps : List (String × String)) (seen : List String) (q : String)
    (hq : q ∈ ps.map Prod.fst) : q ∈ seen ∨ q ∈ firstSeen seen ps := by
  induction ps generalizing seen with
  | nil => simp at hq
  | cons kv rest ih =>
    obtain ⟨k, v⟩ := kv
    simp only [List.map_cons, List.mem_cons] at hq
    by_cases h : k ∈ seen
    · rcases hq with hq | hq
      · subst hq; exact Or.inl h
      · simpa [firstSeen, h] using ih seen hq
    · rcases hq with hq | hq
      · subst hq; simp [firstSeen, h]
      · rcases ih (seen ++ [k]) hq with hs | hf
        · rcases List.mem_append.mp hs with hs | hs
          · exact Or.inl hs
          · simp only [List.mem_singleton] at hs
            subst hs; simp [firstSeen, h]
        · simp [firstSeen, h, hf]

theorem firstSeen_nil_of_subset (ps : List (String × String)) (seen : List String)
    (h : ∀ q ∈ ps.map Prod.fst, q ∈ seen) : firstSeen seen ps = [] := by
  induction ps with
  | nil => rfl
  | cons kv rest ih =>
    obtain ⟨k, v⟩ := kv
    have hk : k ∈ seen := h k (by simp)
    simp only [firstSeen, hk, if_pos]
    exact ih (fun q hq => h q (by simp [hq]))

theorem latestText_mem_keys (ps : List (String × String)) (q v : String)
    (h : latestText ps q = some v) : q ∈ ps.map Prod.fst := by
  induction ps generalizing v with
  | nil => simp [latestText] at h
  | cons kv rest ih =>
    obtain ⟨k, v'⟩ := kv
    simp only [latestText] at h
    cases hr : latestText rest q with
    | some r =>
      simp only [List.map_cons, List.mem_cons]
      exact Or.inr (ih r hr)
    | none =>
      rw [hr] at h
      by_cases hk : k = q
      · simp [hk]
      · simp [hk] at h

theorem specAnswer_append_self (l : List AgentEvent) :
    specAnswer (l ++ l) = specAnswer l := by
  unfold specAnswer
  rw [qualParts_append, firstSeen_append, List.nil_append]
  rw [firstSeen_nil_of_subset (qualParts l) (firstSeen [] (qualParts l))
    (fun q hq => (mem_seen_or_firstSeen (qualParts l) [] q hq).resolve_left (by simp))]
  rw [List.append_nil]
  congr 1
  congr 1
  apply List.map_congr_left
  intro id _
  rw [latestText_append]
  cases latestText (qualParts l) id <;> rfl

theorem qualParts_append_single (l : List AgentEvent) (e : AgentEvent) (kv : String × String)
    (h : partEventData e = some kv) : qualParts (l ++ [e]) = qualParts l ++ [kv] := by
  simp [qualParts, List.filterMap_append, List.filterMap_cons, h]

theorem specAnswer_append_latest (l : List AgentEvent) (e : AgentEvent) (k v : String)
    (he : partEventData e = some (k, v))
    (hl : latestText (qualParts l) k = some v) :
    specAnswer (l ++ [e]) = specAnswer l := by
  unfold specAnswer
  rw [qualParts_append_single l e (k, v) he, firstSeen_append, List.nil_append]
  have hk : k ∈ firstSeen [] (qualParts l) :=
    (mem_seen_or_firstSeen (qualParts l) [] k (latestText_mem_keys _ _ _ hl)).resolve_left
      (by simp)
  rw [show firstSeen (firstSeen [] (qualParts l)) [(k, v)] = [] by simp [firstSeen, hk]]
  rw [List.append_nil]
  congr 1
  congr 1
  apply List.map_congr_left
  intro id _
  rw [latestText_append]
  by_cases hid : k = id
  · subst hid
    simp [latestText, hl]
  · simp [latestText, hid]

/-- The two part-update events of the duplicate-re-delivery analysis:
two cumulative updates for the same part id `"a"`, first `"x"`, then `"y"`. -/
def dupEvtX : AgentEvent :=
  { type := "message.part.updated", sessionID := none,
    part := some { id := "a", type := "text", role := some "assistant", text := some "x" },
    info := none, error := none }

/-- Second update for part id `"a"`, carrying text `"y"`. -/
def dupEvtY : AgentEvent :=
  { type := "message.part.updated", sessionID := none,
    part := some { id := "a", type := "text", role := some "assistant", text := some "y" },
    info := none, error := none }

/-- C7 counterexample. Appending a later duplicate of an *earlier*
`message.part.updated` event (same part id `"a"`, same text `"x"`) does
not always preserve the assembled answer: after a later update of part
`"a"` to `"y"`, re-delivering the earlier `"x"` update changes the
result from `"y"` back to `"x"`. -/
theorem extractAnswer_duplicate_counterexample :
    extractAnswerFromEvents [dupEvtX, dupEvtY, dupEvtX] ≠
      extractAnswerFromEvents [dupEvtX, dupEvtY] := by
  decide

/-- C7 (amended). The Answer Assembler is idempotent under replay:
processing the full event list twice yields the same final string; and
appending a later duplicate of a qualifying `message.part.updated` event
preserves the final string provided the duplicated event's text is still
the latest text recorded for its part id (without that proviso the
result can change, as the counterexample shows). -/
theorem extractAnswer_idempotent_amended :
    (∀ l : List AgentEvent, extractAnswerFromEvents (l ++ l) = extractAnswerFromEvents l) ∧
    (∀ (l : List AgentEvent) (e : AgentEvent) (k v : String),
      partEventData e = some (k, v) →
      latestText (qualParts l) k = some v →
      extractAnswerFromEvents (l ++ [e]) = extractAnswerFromEvents l) := by
  constructor
  · intro l
    rw [extractAnswer_eq_specAnswer, extractAnswer_eq_specAnswer, specAnswer_append_self]
  · intro l e k v he hl
    rw [extractAnswer_eq_specAnswer, extractAnswer_eq_specAnswer,
      specAnswer_append_latest l e k v he hl]

/-- C7 witness: the amended theorem applied at the concrete list
`[dupEvtX, dupEvtY]`, with the duplicate being the latest update `dupEvtY`. -/
theorem extractAnswer_idempotent_amended_witness :
    extractAnswerFromEvents ([dupEvtX, dupEvtY] ++ [dupEvtX, dupEvtY]) =
      extractAnswerFromEvents [dupEvtX, dupEvtY] ∧
    extractAnswerFromEvents ([dupEvtX, dupEvtY] ++ [dupEvtY]) =
      extractAnswerFromEvents [dupEvtX, dupEvtY] :=
  ⟨extractAnswer_idempotent_amended.1 [dupEvtX, dupEvtY],
   extractAnswer_idempotent_amended.2 [dupEvtX, dupEvtY] dupEvtY "a" "y"
     (by decide) (by decide)⟩

/-- The token-usage record built by `query()` (`src/agent/index.ts:305-310`).
The optional floating-point `cost` field set at `src/agent/index.ts:311-313`
is not modelled (floating point). -/
structure TokenUsage where
  inputTokens : Nat
  outputTokens : Nat
  totalTokens : Nat
deriving DecidableEq

/-- The token-usage extraction of `query()` (`src/agent/index.ts:305-310`):
each field falls through JS `||` chains, so `0` and absent both defer to
the fallback (`input || prompt || 0`, `output || completion || 0`,
`total || (input || 0) + (output || 0)`). -/
def mkTokenUsage (t : Tokens) : TokenUsage :=
  { inputTokens := jsOrNat t.input (jsOrNat t.prompt 0)
    outputTokens := jsOrNat t.output (jsOrNat t.completion 0)
    totalTokens := jsOrNat t.total (jsOrNat t.input 0 + jsOrNat t.output 0) }

/-- The captured message of a `session.error` event
(`src/agent/index.ts:318-321`): JS
`props?.error?.data?.message || props?.error?.name || "Unknown error occurred"`. -/
def errMessage (e : AgentEvent) : String :=
  jsOrStr (e.error.bind ErrPayload.dataMessage)
    (jsOrStr (e.error.bind ErrPayload.name) "Unknown error occurred")

/-- The mutable locals of the event-pump loop of `query()`
(`src/agent/index.ts:291-292`). -/
structure PumpState where
  tokenUsage : Option TokenUsage
  sessionError : Option String
deriving DecidableEq

/-- One iteration of the event-pump loop of `query()`
(`src/agent/index.ts:296-324`): a `message.updated` event from an
assistant with a tokens record overwrites the token usage; a
`session.error` event overwrites the captured error message. -/
def pumpStep (s : PumpState) (e : AgentEvent) : PumpState :=
  if e.type = "message.updated" then
    match e.info with
    | some info =>
      if info.role = some "assistant" then
        match info.tokens with
        | some t => { s with tokenUsage := some (mkTokenUsage t) }
        | none => s
      else s
    | none => s
  else if e.type = "session.error" then
    { s with sessionError := some (errMessage e) }
  else s

/-- The result record of a successful `query()` (`src/agent/index.ts:336-339`). -/
structure QueryResult where
  response : String
  tokenUsage : Option TokenUsage
deriving DecidableEq

/-- The outcome of `query()` as a function of the collected event list
(`src/agent/index.ts:291-340`): pump every event, fail with the captured
message if a session error was recorded, otherwise assemble the answer
(JS `responseText || "(No response received)"`: the empty string falls
back to the placeholder) and return it with the token usage. -/
def queryOutcome (events : List AgentEvent) : Except String QueryResult :=
  let s := events.foldl pumpStep { tokenUsage := none, sessionError := none }
  match s.sessionError with
  | some msg => Except.error msg
  | none =>
    let responseText := extractAnswerFromEvents events
    Except.ok
      { response := if responseText = "" then "(No response received)" else responseText
        tokenUsage := s.tokenUsage }

/-- The error message recorded by the last `session.error` event of the
list, if any (later events overwrite earlier ones in the pump loop). -/
def lastErrMsg : List AgentEvent → Option String
  | [] => none
  | e :: rest =>
    match lastErrMsg rest with
    | some m => some m
    | none => if e.type = "session.error" then some (errMessage e) else none

/-- The tokens record of the last `message.updated` event of the list
whose `info.role` is `"assistant"` and which carries tokens, if any. -/
def assistantTokens (e : AgentEvent) : Option Tokens :=
  if e.type = "message.updated" then
    match e.info with
    | some info => if info.role = some "assistant" then info.tokens else none
    | none => none
  else none

/-- The last assistant tokens record of the event list, if any. -/
def lastAssistantTokens : List AgentEvent → Option Tokens
  | [] => none
  | e :: rest =>
    match lastAssistantTokens rest with
    | some t => some t
    | none => assistantTokens e

theorem pumpStep_sessionError (s : PumpState) (e : AgentEvent) :
    (pumpStep s e).sessionError =
      if e.type = "session.error" then some (errMessage e) else s.sessionError := by
  unfold pumpStep
  by_cases h1 : e.type = "message.updated"
  · have h2 : ¬e.type = "session.error" := by rw [h1]; decide
    cases e.info with
    | none => simp [h1, h2]
    | some info =>
      obtain ⟨irole, itok⟩ := info
      by_cases hr : irole = some "assistant"
      · cases itok <;> simp [h1, h2, hr]
      · simp [h1, h2, hr]
  · by_cases h2 : e.type = "session.error" <;> simp [h1, h2]

theorem pumpStep_tokenUsage (s : PumpState) (e : AgentEvent) :
    (pumpStep s e).tokenUsage =
      match assistantTokens e with
      | some t => some (mkTokenUsage t)
      | none => s.tokenUsage := by
  unfold pumpStep assistantTokens
  by_cases h1 : e.type = "message.updated"
  · cases e.info with
    | none => simp [h1]
    | some info =>
      obtain ⟨irole, itok⟩ := info
      by_cases hr : irole = some "assistant"
      · cases itok <;> simp [h1, hr]
      · simp [h1, hr]
  · by_cases h2 : e.type = "session.error" <;> simp [h1, h2]

theorem foldl_pumpStep_sessionError (events : List AgentEvent) (s : PumpState) :
    (events.foldl pumpStep s).sessionError =
      match lastErrMsg events with
      | some m => some m
      | none => s.sessionError := by
  induction events generalizing s with
  | nil => simp [lastErrMsg]
  | cons e rest ih =>
    rw [List.foldl_cons, ih]
    simp only [lastErrMsg]
    cases lastErrMsg rest with
    | some m => rfl
    | none =>
      rw [pumpStep_sessionError]
      by_cases h : e.type = "session.error" <;> simp [h]

theorem foldl_pumpStep_tokenUsage (events : List AgentEvent) (s : PumpState) :
    (events.foldl pumpStep s).tokenUsage =
      match lastAssistantTokens events with
      | some t => some (mkTokenUsage t)
      | none => s.tokenUsage := by
  induction events generalizing s with
  | nil => simp [lastAssistantTokens]
  | cons e rest ih =>
    rw [List.foldl_cons, ih]
    simp only [lastAssistantTokens]
    cases lastAssistantTokens rest with
    | some t => rfl
    | none =>
      rw [pumpStep_tokenUsage]

theorem lastErrMsg_eq_errMessage (events : List AgentEvent) (m : String)
    (h : lastErrMsg events = some m) :
    ∃ err ∈ events, err.type = "session.error" ∧ m = errMessage err := by
  induction events with
  | nil => simp [lastErrMsg] at h
  | cons e rest ih =>
    simp only [lastErrMsg] at h
    cases hr : lastErrMsg rest with
    | some m' =>
      rw [hr] at h
      obtain ⟨err, hmem, hty, hm⟩ := ih (h ▸ hr)
      exact ⟨err, by simp [hmem], hty, hm⟩
    | none =>
      rw [hr] at h
      by_cases ht : e.type = "session.error"
      · rw [if_pos ht] at h
        exact ⟨e, by simp, ht, by injection h with h; exact h.symm⟩
      · rw [if_neg ht] at h
        exact absurd h (by simp)

theorem lastErrMsg_isSome (events : List AgentEvent) (e : AgentEvent)
    (hmem : e ∈ events) (ht : e.type = "session.error") :
    ∃ m, lastErrMsg events = some m := by
  induction events with
  | nil => simp at hmem
  | cons e' rest ih =>
    simp only [lastErrMsg]
    cases hr : lastErrMsg rest with
    | some m => exact ⟨m, rfl⟩
    | none =>
      rcases List.mem_cons.mp hmem with h | h
      · subst h
        exact ⟨errMessage e, by rw [if_pos ht]⟩
      · obtain ⟨m, hm⟩ := ih h
        rw [hm] at hr
        exact absurd hr (by simp)

/-- A `session.error` event whose payload carries the structured message
`"boom"`. -/
def errEvtBoom : AgentEvent :=
  { type := "session.error", sessionID := none, part := none, info := none,
    error := some { dataMessage := some "boom", name := some "ProviderError" } }

/-- A `message.part.updated` text event delivered after the error. -/
def lateTextEvt : AgentEvent :=
  { type := "message.part.updated", sessionID := none,
    part := some { id := "p", type := "text", role := some "assistant", text := some "late" },
    info := none, error := none }

/-- C3. If a `session.error` event occurs anywhere in the event list
consumed by `query()`, then `query()` fails, and the failure message is
the one captured from a `session.error` event of the list by the
fallback chain `error.data.message` then `error.name` then the generic
unknown-error text (`errMessage`) — regardless of any
`message.part.updated` text events elsewhere in the list. -/
theorem queryOutcome_session_error (events : List AgentEvent) (e : AgentEvent)
    (hmem : e ∈ events) (ht : e.type = "session.error") :
    ∃ err ∈ events, err.type = "session.error" ∧
      queryOutcome events = Except.error (errMessage err) := by
  obtain ⟨m, hm⟩ := lastErrMsg_isSome events e hmem ht
  obtain ⟨err, hmem', hty', hmsg⟩ := lastErrMsg_eq_errMessage events m hm
  refine ⟨err, hmem', hty', ?_⟩
  unfold queryOutcome
  simp only [foldl_pumpStep_sessionError, hm, hmsg]

/-- C3 witness: a `session.error` event with a structured message,
followed by a later text event; `query()` fails with `"boom"`. -/
theorem queryOutcome_session_error_witness :
    ∃ err ∈ [errEvtBoom, lateTextEvt], err.type = "session.error" ∧
      queryOutcome [errEvtBoom, lateTextEvt] = Except.error (errMessage err) :=
  queryOutcome_session_error [errEvtBoom, lateTextEvt] errEvtBoom (by simp) rfl

deriving instance DecidableEq for Except

/-- A `message.updated` assistant event carrying tokens
`{input:3, output:2, total:0}` — an explicit total of `0`. -/
def c4TotalZeroEvt : AgentEvent :=
  { type := "message.updated", sessionID := none, part := none,
    info := some { role := some "assistant",
                   tokens := some { input := some 3, output := some 2, total := some 0,
                                    prompt := none, completion := none } },
    error := none }

/-- A `message.updated` assistant event carrying tokens `{input:10, output:5}`. -/
def c4Evt1 : AgentEvent :=
  { type := "message.updated", sessionID := none, part := none,
    info := some { role := some "assistant",
                   tokens := some { input := some 10, output := some 5, total := none,
                                    prompt := none, completion := none } },
    error := none }

/-- A `message.updated` assistant event carrying tokens
`{input:10, output:5, total:16}`. -/
def c4Evt2 : AgentEvent :=
  { type := "message.updated", sessionID := none, part := none,
    info := some { role := some "assistant",
                   tokens := some { input := some 10, output := some 5, total := some 16,
                                    prompt := none, completion := none } },
    error := none }

/-- A `message.updated` assistant event carrying tokens `{input:3, output:2}`. -/
def c4Evt3 : AgentEvent :=
  { type := "message.updated", sessionID := none, part := none,
    info := some { role := some "assistant",
                   tokens := some { input := some 3, output := some 2, total := none,
                                    prompt := none, completion := none } },
    error := none }

/-- C4 counterexample. The claim says the explicit total wins whenever
one is supplied, but JS `tokens.total || (input+output)` treats a
supplied total of `0` as falsy: for the single assistant event with
tokens `{input:3, output:2, total:0}`, `query()` returns
`totalTokens = 5`, not the supplied `0`. -/
theorem tokenUsage_total_zero_counterexample :
    queryOutcome [c4TotalZeroEvt] =
      Except.ok { response := "(No response received)",
                  tokenUsage := some { inputTokens := 3, outputTokens := 2, totalTokens := 5 } } ∧
    queryOutcome [c4TotalZeroEvt] ≠
      Except.ok { response := "(No response received)",
                  tokenUsage := some { inputTokens := 3, outputTokens := 2, totalTokens := 0 } } := by
  decide

/-- C4 (amended). On an event list with no `session.error`, `query()`
succeeds and its `TokenUsage` is taken from the last `message.updated`
event with assistant role and a tokens record; `totalTokens` equals the
event's explicit total when one is supplied *and nonzero*, and otherwise
equals `inputTokens + outputTokens` computed from the `input`/`output`
fields (`0`/absent fall through the JS `||` chain); concretely,
`{input:10,output:5}` then `{input:10,output:5,total:16}` yields
`{10, 5, 16}`, and a single `{input:3,output:2}` with no total yields
`totalTokens = 5`. -/
theorem tokenUsage_last_event_amended :
    (∀ events : List AgentEvent, lastErrMsg events = none →
      ∃ r : QueryResult, queryOutcome events = Except.ok r ∧
        r.tokenUsage = (lastAssistantTokens events).map mkTokenUsage) ∧
    (∀ t : Tokens, (t.total = some 0 ∨ t.total = none) →
      (mkTokenUsage t).totalTokens = jsOrNat t.input 0 + jsOrNat t.output 0) ∧
    (∀ (t : Tokens) (n : Nat), t.total = some n → n ≠ 0 →
      (mkTokenUsage t).totalTokens = n) ∧
    queryOutcome [c4Evt1, c4Evt2] =
      Except.ok { response := "(No response received)",
                  tokenUsage := some { inputTokens := 10, outputTokens := 5, totalTokens := 16 } } ∧
    queryOutcome [c4Evt3] =
      Except.ok { response := "(No response received)",
                  tokenUsage := some { inputTokens := 3, outputTokens := 2, totalTokens := 5 } } := by
  refine ⟨?_, ?_, ?_, by decide, by decide⟩
  · intro events h
    have hs : (events.foldl pumpStep { tokenUsage := none, sessionError := none }).sessionError
        = none := by
      rw [foldl_pumpStep_sessionError, h]
    have htok : (events.foldl pumpStep { tokenUsage := none, sessionError := none }).tokenUsage
        = (lastAssistantTokens events).map mkTokenUsage := by
      rw [foldl_pumpStep_tokenUsage]
      cases lastAssistantTokens events <;> rfl
    refine ⟨{ response := if extractAnswerFromEvents events = "" then "(No response received)"
                          else extractAnswerFromEvents events,
              tokenUsage := (lastAssistantTokens events).map mkTokenUsage }, ?_, rfl⟩
    simp only [queryOutcome, hs, htok]
  · intro t h
    rcases h with h | h <;> simp [mkTokenUsage, jsOrNat, h]
  · intro t n h hn
    simp [mkTokenUsage, jsOrNat, h, hn]

/-- C4 witness: the amended theorem applied at the empty event list and
at the claim's two concrete tokens records. -/
theorem tokenUsage_last_event_amended_witness :
    (∃ r : QueryResult, queryOutcome [] = Except.ok r ∧
      r.tokenUsage = (lastAssistantTokens []).map mkTokenUsage) ∧
    (mkTokenUsage { input := some 3, output := some 2, total := none,
                    prompt := none, completion := none }).totalTokens =
      jsOrNat (some 3) 0 + jsOrNat (some 2) 0 ∧
    (mkTokenUsage { input := some 10, output := some 5, total := some 16,
                    prompt := none, completion := none }).totalTokens = 16 :=
  ⟨tokenUsage_last_event_amended.1 [] rfl,
   tokenUsage_last_event_amended.2.1 _ (Or.inr rfl),
   tokenUsage_last_event_amended.2.2.1 _ 16 rfl (by decide)⟩

/-- JS `String.prototype.split` with a one-character separator, on the
character list of the string: `"a/b"` → `[['a'], ['b']]`, `""` → `[[]]`,
`"a//b"` → `[['a'], [], ['b']]`. -/
def splitOnChar (sep : Char) : List Char → List (List Char)
  | [] => [[]]
  | c :: cs =>
    if c = sep then [] :: splitOnChar sep cs
    else
      match splitOnChar sep cs with
      | [] => [[c]]
      | g :: gs => (c :: g) :: gs

/-- The model-selector parsing of `query()`
(`src/agent/index.ts:269`, also `src/agent.ts:214`):
`const [providerID, modelID] = modelString.split("/")` — array
destructuring, so a missing element is `undefined` (`none`), and no
validation is performed. -/
def parseModelSelector (modelString : String) : Option String × Option String :=
  let parts := (splitOnChar '/' modelString.data).map String.mk
  (parts.get? 0, parts.get? 1)

/-- C5 (evaluation at the failing input). `"openai/gpt-5"` parses into
`{providerID:"openai", modelID:"gpt-5"}`, but a model string with no
`'/'`, such as `"gpt-5"`, silently yields `providerID = "gpt-5"` and
`modelID = undefined`: no validation failure occurs anywhere in the
code, contradicting the claim that such strings fail validation. -/
theorem parseModelSelector_no_slash :
    parseModelSelector "openai/gpt-5" = (some "openai", some "gpt-5") ∧
    parseModelSelector "gpt-5" = (some "gpt-5", none) ∧
    "gpt-5".data.contains '/' = false := by
  decide

/-- The session-establishment step of `query()`
(`src/agent/index.ts:260-266`), as a function of the cached session id
and of the outcome of the remote `session.create()` call (`none` models
a response with no `data`). Returns the new cache and the call outcome:
with no cache and a failed creation, the call fails with
`"Failed to create session"` and the cache stays empty; with no cache
and a successful creation, the returned id is cached; with a cached id,
the cache is reused and creation is not consulted. -/
def ensureSession (currentSessionId : Option String) (createResult : Option String) :
    Option String × Except String String :=
  match currentSessionId with
  | some sid => (some sid, Except.ok sid)
  | none =>
    match createResult with
    | none => (none, Except.error "Failed to create session")
    | some id => (some id, Except.ok id)

/-- C6. With no cached session and a failed creation, `query()` fails
with the session-creation error and the cache remains empty (so the
next call runs the creation path again); a successful creation caches
the returned id; a cached id is reused unconditionally by every later
query until reset. -/
theorem ensureSession_cache :
    ensureSession none none = (none, Except.error "Failed to create session") ∧
    (∀ id : String, ensureSession none (some id) = (some id, Except.ok id)) ∧
    (∀ (sid : String) (r : Option String),
      ensureSession (some sid) r = (some sid, Except.ok sid)) :=
  ⟨rfl, fun _ => rfl, fun _ _ => rfl⟩

/-- The thinking-mode enum (`src/types`, used by `src/agent/index.ts:35`). -/
inductive ThinkingMode
  | low
  | medium
  | high
deriving DecidableEq

/-- The client handle created by `start()` (`src/agent/index.ts:158-161`):
`createOpencodeClient({baseUrl: url, directory: this.repositoryPath || undefined})`. -/
structure ClientHandle where
  baseUrl : String
  directory : Option String
deriving DecidableEq

/-- The private fields of the `SupportAgent` class
(`src/agent/index.ts:29-35`). The opaque server-process handle is
modelled by a `Nat` token. -/
structure AgentState where
  client : Option ClientHandle
  serverProc : Option Nat
  currentSessionId : Option String
  repositoryPath : Option String
  currentModel : String
  currentMode : ThinkingMode
deriving DecidableEq

/-- JS `x || undefined` on an optional string: `""` and `null` both
become `undefined` (`src/agent/index.ts:160`). -/
def jsStrOrNone (o : Option String) : Option String :=
  match o with
  | some p => if p = "" then none else some p
  | none => none

/-- `stop()` (`src/agent/index.ts:169-175`): clears the process handle,
the client and the cached session id; everything else is kept. -/
def stop (s : AgentState) : AgentState :=
  { s with serverProc := none, client := none, currentSessionId := none }

/-- The outcome of `spawnServer` consumed by `start()`
(`src/agent/index.ts:155`). -/
structure SpawnResult where
  procHandle : Nat
  url : String

/-- The argument `start()` passes to `spawnServer`
(`src/agent/index.ts:155`): the current model string. -/
def spawnModelArg (s : AgentState) : String :=
  s.currentModel

/-- `start()` (`src/agent/index.ts:154-164`): stores the spawned process
handle and builds the client from the returned URL and the preserved
repository path. -/
def start (s : AgentState) (r : SpawnResult) : AgentState :=
  { s with serverProc := some r.procHandle,
           client := some { baseUrl := r.url, directory := jsStrOrNone s.repositoryPath } }

/-- The precondition check at the top of `query()`
(`src/agent/index.ts:249-251`): with no client, the call throws
`"Agent not started"`. -/
def queryGate (s : AgentState) : Except String Unit :=
  match s.client with
  | none => Except.error "Agent not started"
  | some _ => Except.ok ()

/-- C10. `stop()` clears the server-process handle, the client and the
cached session id while leaving the repository path, the current model
and the current thinking mode unchanged; consequently, after `stop()`
the `query()` precondition fails with the not-started error (and keeps
failing until a `start()` sets a client again), and a subsequent
`start()` passes the preserved model to `spawnServer` and builds its
client from the preserved repository path. -/
theorem stop_frame (s : AgentState) :
    (stop s).serverProc = none ∧
    (stop s).client = none ∧
    (stop s).currentSessionId = none ∧
    (stop s).repositoryPath = s.repositoryPath ∧
    (stop s).currentModel = s.currentModel ∧
    (stop s).currentMode = s.currentMode ∧
    queryGate (stop s) = Except.error "Agent not started" ∧
    (∀ r : SpawnResult,
      spawnModelArg (stop s) = s.currentModel ∧
      (start (stop s) r).client =
        some { baseUrl := r.url, directory := jsStrOrNone s.repositoryPath }) :=
  ⟨rfl, rfl, rfl, rfl, rfl, rfl, rfl, fun _ => ⟨rfl, rfl⟩⟩

/-- A character the JS regex `.` never matches (line terminators). -/
def isLineTerm (c : Char) : Bool :=
  c = '\n' || c = '\r' || c = '\u2028' || c = '\u2029'

/-- JS `(.*)$` at the end of a pattern: matches the whole remainder iff
it contains no line terminator (no `s`/`m` flags); the capture group is
the remainder itself. -/
def matchDotStarEnd (cs : List Char) : Option (List Char) :=
  if cs.all (fun c => !isLineTerm c) then some cs else none

/-- JS `\s*(.*)$` on the remainder, with the engine's backtracking: the
greedy `\s*` consumes whitespace as long as the rest still matches, and
the `(.*)` group of the first successful path is returned. -/
def matchWsRest : List Char → Option (List Char)
  | [] => matchDotStarEnd []
  | c :: cs =>
    if isJsWs c then
      match matchWsRest cs with
      | some g => some g
      | none => matchDotStarEnd (c :: cs)
    else matchDotStarEnd (c :: cs)

/-- The part of `/^\[(.*?)\]\s*(.*)$/` after the opening bracket
(`src/utils.ts`, `parseInput`): the lazy group `(.*?)` (whose `.` cannot
cross line terminators) grows one character at a time, at each position
first trying to close with `]` followed by `\s*(.*)$`; the two capture
groups of the first successful path are returned. -/
def matchAfterBracket : List Char → Option (List Char × List Char)
  | [] => none
  | c :: cs =>
    if c = ']' then
      match matchWsRest cs with
      | some g2 => some ([], g2)
      | none =>
        match matchAfterBracket cs with
        | some (g1, g2) => some (c :: g1, g2)
        | none => none
    else if isLineTerm c then none
    else
      match matchAfterBracket cs with
      | some (g1, g2) => some (c :: g1, g2)
      | none => none

/-- The result record of `parseInput` (`src/utils.ts`). -/
structure ParsedInput where
  source : Option String
  query : String
deriving DecidableEq

/-- `parseInput` (`src/utils.ts`): match the input against
`/^\[(.*?)\]\s*(.*)$/`; on success return the two trimmed groups as
`{source, query}`, otherwise `{query: input.trim()}` with no source. -/
def parseInput (input : String) : ParsedInput :=
  match input.data with
  | '[' :: rest =>
    match matchAfterBracket rest with
    | some (g1, g2) =>
      { source := some (jsTrim (String.mk g1)), query := jsTrim (String.mk g2) }
    | none => { source := none, query := jsTrim input }
  | _ => { source := none, query := jsTrim input }

/-- Whether the input carries a leading bracketed source, i.e. whether
the regex of `parseInput` matches. -/
def hasBracketSource (input : String) : Bool :=
  match input.data with
  | '[' :: rest => (matchAfterBracket rest).isSome
  | _ => false

/-- C8. `parseInput("[./repo] what does this do")` extracts the
bracketed source prefix as `{source:"./repo", query:"what does this do"}`,
and for every input with no leading bracketed source (the regex does not
match) it returns no source and the trimmed input as the query. -/
theorem parseInput_spec :
    parseInput "[./repo] what does this do" =
      { source := some "./repo", query := "what does this do" } ∧
    (∀ input : String, hasBracketSource input = false →
      parseInput input = { source := none, query := jsTrim input }) := by
  constructor
  · decide
  · intro input h
    unfold parseInput
    unfold hasBracketSource at h
    split
    · rename_i rest heq
      rw [heq] at h
      simp only at h
      cases hm : matchAfterBracket rest with
      | some g => rw [hm] at h; simp at h
      | none => simp [hm]
    · rfl

/-- C8 witness: `parseInput` applied at `"plain question"`, which has no
leading bracketed source. -/
theorem parseInput_spec_witness :
    hasBracketSource "plain question" = false ∧
    parseInput "plain question" = { source := none, query := jsTrim "plain question" } ∧
    jsTrim "plain question" = "plain question" :=
  ⟨by decide, parseInput_spec.2 "plain question" (by decide), by decide⟩

/-- The `PROVIDER_API_KEYS` record (`src/unnamed/part_001:8-15`): provider
id to required environment-variable name. -/
def PROVIDER_API_KEYS : List (String × String) :=
  [("google", "GOOGLE_API_KEY"),
   ("openai", "OPENAI_API_KEY"),
   ("anthropic", "ANTHROPIC_API_KEY"),
   ("deepseek", "DEEPSEEK_API_KEY"),
   ("xai", "XAI_API_KEY"),
   ("mistral", "MISTRAL_API_KEY")]

/-- `FREE_PROVIDERS` (`src/unnamed/part_001:18`). -/
def FREE_PROVIDERS : List String :=
  ["zai", "opencode"]

/-- The provider allow-list `allowedProviders` (`src/unnamed/part_001:35-46`);
only providers on this list are surfaced for selection. -/
def allowedProviders : List String :=
  ["zai", "opencode", "google", "openai", "deepseek", "xai", "anthropic", "mistral"]

/-- JS record access `PROVIDER_API_KEYS[providerId]` (an absent key gives
`undefined`). -/
def getApiKeyEnvVar (providerId : String) : Option String :=
  (PROVIDER_API_KEYS.find? (fun kv => kv.1 = providerId)).map Prod.snd

/-- `requiresApiKey` (`src/unnamed/part_001:82-84`):
`!FREE_PROVIDERS.includes(providerId)`. -/
def requiresApiKey (providerId : String) : Bool :=
  !FREE_PROVIDERS.contains providerId

/-- JS `!!process.env[envVar]`: `undefined` and `""` are falsy. -/
def jsTruthyStr (o : Option String) : Bool :=
  match o with
  | some s => s ≠ ""
  | none => false

/-- `hasApiKey` (`src/unnamed/part_001:96-99`), with the process
environment as an explicit map: `envVar ? !!process.env[envVar] : true`
— a provider with no entry in `PROVIDER_API_KEYS` passes unconditionally. -/
def hasApiKey (env : String → Option String) (providerId : String) : Bool :=
  match getApiKeyEnvVar providerId with
  | some envVar => if envVar = "" then true else jsTruthyStr (env envVar)
  | none => true

/-- C9 counterexample. In this code every provider on the selection
allow-list is either free or has a `PROVIDER_API_KEYS` entry, so no
*selectable* provider can simultaneously require an API key and pass the
key check with no environment variable set: the list of allow-listed
providers that require a key and still pass `hasApiKey` under the empty
environment is empty. -/
theorem allowlist_no_keyless_provider :
    allowedProviders.filter
      (fun p => requiresApiKey p && hasApiKey (fun _ => none) p) = [] := by
  decide

/-- C9 (amended). For every provider id with no entry in
`PROVIDER_API_KEYS`, `hasApiKey` returns true under every environment,
and when the id is also absent from `FREE_PROVIDERS`, `requiresApiKey`
returns true for it — so such an id (e.g. `"alibaba"`) would require a
key yet pass the key check; however, no provider on the selection
allow-list is in that state (every allow-listed provider is free or has
a key entry), so a selectable provider never exhibits the combination. -/
theorem hasApiKey_missing_entry_amended (providerId : String) (env : String → Option String)
    (h : getApiKeyEnvVar providerId = none) :
    hasApiKey env providerId = true ∧
    (FREE_PROVIDERS.contains providerId = false → requiresApiKey providerId = true) := by
  constructor
  · unfold hasApiKey
    rw [h]
  · intro hf
    unfold requiresApiKey
    rw [hf]
    rfl

/-- C9 witness: the amended theorem applied at `"alibaba"`, a provider
id outside both `PROVIDER_API_KEYS` and `FREE_PROVIDERS`, under the
empty environment. -/
theorem hasApiKey_missing_entry_amended_witness :
    hasApiKey (fun _ => none) "alibaba" = true ∧
    requiresApiKey "alibaba" = true :=
  ⟨(hasApiKey_missing_entry_amended "alibaba" (fun _ => none) (by decide)).1,
   (hasApiKey_missing_entry_amended "alibaba" (fun _ => none) (by decide)).2 (by decide)⟩

end SupportAgent
